import Mathlib

/-!
# Rider earnings and cash-out settlement engine, shallow embedding

The repository concatenates three near-duplicate revisions of a courier
backend.  The cash-out engine (`POST /rider/cash-out`) appears in two of
them:

* revision 2 (src/index.js, lines 864-985): recomputes the commission from
  `cost` and the two region tags, tracks a cumulative `paid_amount` per
  parcel, and recomputes the `earning_paid` flag from the amounts.
* revision 3 (src/index.js, lines 1197-1311): reads the stored `earning`
  field, never touches `paid_amount`, and sets `earning_paid` to `true` on
  every parcel it touches.

Monetary values are modelled as rationals; the document store is a list of
parcels plus an append-only list of cash-out records, and each handler is a
pure function from a request and a store state to a result and a new state.
-/

/-- String constant for the `delivered` terminal delivery status. -/
def statusDelivered : String := "delivered"

/-- String constant for the `service-center-delivered` terminal status. -/
def statusCenter : String := "service-center-delivered"

/-- String constant for the `completed` cash-out record status. -/
def completedStatus : String := "completed"

/-- A parcel document, restricted to the fields the cash-out engine reads
or writes.  `earning`, `paid_amount` and `assigned_at` may be absent in the
store, hence `Option`; JavaScript `p.field || 0` becomes `getD 0`. -/
structure Parcel where
  pid : Nat
  cost : ℚ
  sender_region : String
  receiver_region : String
  delivery_status : String
  assigned_rider : Option String
  assigned_at : Option Nat
  earning : Option ℚ
  paid_amount : Option ℚ
  earning_paid : Bool
deriving DecidableEq

/-- One document of the `cashouts` collection. -/
structure CashOutRecord where
  rider_email : Option String
  parcel_id : Nat
  amount : ℚ
  status : String
deriving DecidableEq

/-- The store state seen by the cash-out handlers: the `parcels`
collection and the append-only `cashouts` collection. -/
structure ServerState where
  parcels : List Parcel
  cashouts : List CashOutRecord
deriving DecidableEq

/-- The failure kinds of the cash-out handlers, one constructor per
distinct 4xx response body in the source. -/
inductive CashOutError where
  /-- "Minimum cash-out amount is 200" (both revisions). -/
  | belowMinimum
  /-- "Parcel not found" (both revisions). -/
  | parcelNotFound
  /-- "Parcel already fully cashed out" (revision 2) or
      "Earning already cashed out" (revision 3). -/
  | alreadyCashedOut
  /-- "Amount exceeds remaining parcel earning" (revision 2, named parcel). -/
  | exceedsRemaining
  /-- "No earnings to cash out" (both revisions, rider-wide). -/
  | noEarnings
  /-- "Amount exceeds total available earnings" (revision 2) or
      "Requested amount exceeds available earnings" (revision 3). -/
  | exceedsAvailable
  /-- "parcelId or riderEmail is required" / "parcelId or email is required". -/
  | missingTarget
deriving DecidableEq

/-- Outcome of a cash-out request: the 200 response with the paid amount,
or one of the failure kinds. -/
inductive CashOutResult where
  | ok (amount : ℚ)
  | err (e : CashOutError)
deriving DecidableEq

/-- `delivery_status: { $in: ["delivered", "service-center-delivered"] }`. -/
def isTerminal (s : String) : Bool :=
  s == statusDelivered || s == statusCenter

/-- The commission expression inlined three times in revision 2:
`sender_region === receiver_region ? cost * 0.1 : cost * 0.2`. -/
def commission (p : Parcel) : ℚ :=
  if p.sender_region = p.receiver_region then p.cost * (1 / 10) else p.cost * (1 / 5)

/-- A parcel's outstanding balance as revision 2 computes it:
`total - (p.paid_amount || 0)` with `total` the recomputed commission. -/
def availableOf (p : Parcel) : ℚ :=
  commission p - p.paid_amount.getD 0

/-- `parcelsCollection.findOne({ _id: new ObjectId(parcelId) })`. -/
def findParcel (ps : List Parcel) (pid0 : Nat) : Option Parcel :=
  ps.find? (fun p => p.pid == pid0)

/-- `parcelsCollection.updateOne({ _id }, ...)`: rewrite the document(s)
with the matching id through `f`, leave the rest unchanged. -/
def updateParcel (ps : List Parcel) (pid0 : Nat) (f : Parcel → Parcel) : List Parcel :=
  ps.map (fun p => if p.pid == pid0 then f p else p)

/-- The cash-out record both revisions insert:
`{ rider, parcel_id, amount, date, status: "completed" }` (the timestamp is
outside the model). -/
def mkRec (re : Option String) (pid0 : Nat) (amt : ℚ) : CashOutRecord :=
  { rider_email := re, parcel_id := pid0, amount := amt, status := completedStatus }

/-- Revision 2 eligibility filter for the rider-wide path:
`"assigned_rider.email": riderEmail` and terminal `delivery_status`.
Note: no `earning_paid` condition. -/
def rev2EligPred (em : String) (p : Parcel) : Bool :=
  p.assigned_rider == some em && isTerminal p.delivery_status

/-- The revision 2 rider-wide eligibility query (unsorted `find`). -/
def rev2Eligible (ps : List Parcel) (em : String) : List Parcel :=
  ps.filter (rev2EligPred em)

/-- Revision 2 `totalAvailable`: `reduce((sum, p) => sum + (total - paid), 0)`
over the queried parcels, with `total` the recomputed commission. -/
def rev2TotalAvailable (ps : List Parcel) : ℚ :=
  (ps.map availableOf).sum

/-- The revision 2 per-parcel update:
`$inc: { paid_amount: pay }`,
`$set: { earning: total, earning_paid: paid + pay >= total }`, where
`paid` and `total` come from the previously read document `p`. -/
def rev2Pay (p : Parcel) (pay : ℚ) (q : Parcel) : Parcel :=
  { q with paid_amount := some (q.paid_amount.getD 0 + pay),
           earning := some (commission p),
           earning_paid := decide (commission p ≤ p.paid_amount.getD 0 + pay) }

/-- Revision 2, single-parcel path (`if (parcelId)` branch). -/
def rev2Single (st : ServerState) (re : Option String) (pid0 : Nat) (amount : ℚ) :
    CashOutResult × ServerState :=
  match findParcel st.parcels pid0 with
  | none => (.err .parcelNotFound, st)
  | some parcel =>
    if commission parcel - parcel.paid_amount.getD 0 ≤ 0 then
      (.err .alreadyCashedOut, st)
    else if commission parcel - parcel.paid_amount.getD 0 < amount then
      (.err .exceedsRemaining, st)
    else
      (.ok amount,
       { parcels := updateParcel st.parcels pid0 (rev2Pay parcel amount),
         cashouts := st.cashouts ++ [mkRec re pid0 amount] })

/-- Revision 2 distribution loop (`for (const p of parcels)`), iterating
over the query snapshot while the collection (`db`) and the record batch
(`recs`) evolve.  `remaining` is `remainingAmount`. -/
def rev2Loop (em : String) :
    List Parcel → ℚ → List Parcel → List CashOutRecord →
    List Parcel × List CashOutRecord
  | [], _, db, recs => (db, recs)
  | p :: rest, remaining, db, recs =>
    if remaining ≤ 0 then (db, recs)
    else if 0 < availableOf p then
      rev2Loop em rest (remaining - min remaining (availableOf p))
        (updateParcel db p.pid (rev2Pay p (min remaining (availableOf p))))
        (recs ++ [mkRec (some em) p.pid (min remaining (availableOf p))])
    else rev2Loop em rest remaining db recs

/-- Revision 2, rider-wide path (`if (riderEmail)` branch). -/
def rev2RiderWide (st : ServerState) (em : String) (amount : ℚ) :
    CashOutResult × ServerState :=
  if (rev2Eligible st.parcels em).isEmpty then (.err .noEarnings, st)
  else if rev2TotalAvailable (rev2Eligible st.parcels em) < amount then
    (.err .exceedsAvailable, st)
  else
    (.ok amount,
     { parcels := (rev2Loop em (rev2Eligible st.parcels em) amount st.parcels []).fst,
       cashouts := st.cashouts ++ (rev2Loop em (rev2Eligible st.parcels em) amount st.parcels []).snd })

/-- Revision 2 `POST /rider/cash-out`.  The guard
`if (!amount || amount < 200)` fires for a missing amount and for any
amount below 200 (a missing or zero amount reads as 0 here, and 0 < 200). -/
def rev2CashOut (st : ServerState) (parcelId : Option Nat) (riderEmail : Option String)
    (amount : Option ℚ) : CashOutResult × ServerState :=
  if amount.getD 0 < 200 then (.err .belowMinimum, st)
  else
    match parcelId with
    | some pid0 => rev2Single st riderEmail pid0 (amount.getD 0)
    | none =>
      match riderEmail with
      | some em => rev2RiderWide st em (amount.getD 0)
      | none => (.err .missingTarget, st)

/-- Revision 3 eligibility filter: rider identity, terminal status, and
`earning_paid: { $ne: true }`. -/
def rev3EligPred (em : String) (p : Parcel) : Bool :=
  p.assigned_rider == some em && isTerminal p.delivery_status && !p.earning_paid

/-- The revision 3 rider-wide eligibility query (unsorted `find`). -/
def rev3Eligible (ps : List Parcel) (em : String) : List Parcel :=
  ps.filter (rev3EligPred em)

/-- Revision 3 `totalAvailable`: `reduce((sum, p) => sum + (p.earning || 0), 0)`,
the stored earning field, ignoring `paid_amount`. -/
def rev3TotalAvailable (ps : List Parcel) : ℚ :=
  (ps.map (fun p => p.earning.getD 0)).sum

/-- The revision 3 per-parcel update: `$set: { earning_paid: true }`. -/
def rev3SetPaid (q : Parcel) : Parcel :=
  { q with earning_paid := true }

/-- Revision 3, single-parcel path: no over-request check; the payment is
silently capped at `Math.min(amount, parcel.earning || 0)`. -/
def rev3Single (st : ServerState) (pid0 : Nat) (amount : ℚ) :
    CashOutResult × ServerState :=
  match findParcel st.parcels pid0 with
  | none => (.err .parcelNotFound, st)
  | some parcel =>
    if parcel.earning_paid then (.err .alreadyCashedOut, st)
    else
      (.ok (min amount (parcel.earning.getD 0)),
       { parcels := updateParcel st.parcels pid0 rev3SetPaid,
         cashouts := st.cashouts ++
           [mkRec parcel.assigned_rider pid0 (min amount (parcel.earning.getD 0))] })

/-- Revision 3 distribution loop: pays `min(remaining, p.earning || 0)` and
sets `earning_paid: true` on the parcel, with no positivity skip and no
`paid_amount` bookkeeping. -/
def rev3Loop (em : String) :
    List Parcel → ℚ → List Parcel → List CashOutRecord →
    List Parcel × List CashOutRecord
  | [], _, db, recs => (db, recs)
  | p :: rest, remaining, db, recs =>
    if remaining ≤ 0 then (db, recs)
    else
      rev3Loop em rest (remaining - min remaining (p.earning.getD 0))
        (updateParcel db p.pid rev3SetPaid)
        (recs ++ [mkRec (some em) p.pid (min remaining (p.earning.getD 0))])

/-- Revision 3, rider-wide path (`if (email)` branch). -/
def rev3RiderWide (st : ServerState) (em : String) (amount : ℚ) :
    CashOutResult × ServerState :=
  if (rev3Eligible st.parcels em).isEmpty then (.err .noEarnings, st)
  else if rev3TotalAvailable (rev3Eligible st.parcels em) < amount then
    (.err .exceedsAvailable, st)
  else
    (.ok amount,
     { parcels := (rev3Loop em (rev3Eligible st.parcels em) amount st.parcels []).fst,
       cashouts := st.cashouts ++ (rev3Loop em (rev3Eligible st.parcels em) amount st.parcels []).snd })

/-- Revision 3 `POST /rider/cash-out`. -/
def rev3CashOut (st : ServerState) (parcelId : Option Nat) (email : Option String)
    (amount : Option ℚ) : CashOutResult × ServerState :=
  if amount.getD 0 < 200 then (.err .belowMinimum, st)
  else
    match parcelId with
    | some pid0 => rev3Single st pid0 (amount.getD 0)
    | none =>
      match email with
      | some em => rev3RiderWide st em (amount.getD 0)
      | none => (.err .missingTarget, st)

/-- Modelled from the spec (sections 4.2, 4.3 and 8): one parcel's
contribution to a rider's `total_available` — its outstanding balance
`earning - paid_amount` (with `earning` the derived commission of spec
section 3) when the parcel is assigned to the rider, terminally delivered
and unsettled (`paid_amount < earning`, spec section 4.2), else 0; the
clamp to 0 makes the settled case explicit. -/
def specAvailTerm (em : String) (p : Parcel) : ℚ :=
  if rev2EligPred em p then max (availableOf p) 0 else 0

/-- Modelled from the spec (section 8, conservation): a rider's
`total_available`, the sum over all their unsettled, assigned,
terminally-delivered parcels of `earning - paid_amount`. -/
def specTotalAvailable (ps : List Parcel) (em : String) : ℚ :=
  (ps.map (specAvailTerm em)).sum

/-- Positive part of the outstanding balances of a list of parcels. -/
def posAvail (ps : List Parcel) : ℚ :=
  (ps.map (fun p => max (availableOf p) 0)).sum

/-! ## Basic lemmas about the store operations -/

/-- The claimed parcel invariant (spec sections 3 and 8):
`0 <= paid_amount <= earning` with `earning_paid` the derived comparison. -/
def earningsInvariant (q : Parcel) : Prop :=
  0 ≤ q.paid_amount.getD 0 ∧ q.paid_amount.getD 0 ≤ q.earning.getD 0 ∧
    q.earning_paid = decide (q.earning.getD 0 ≤ q.paid_amount.getD 0)

theorem rev2Pay_pid (p : Parcel) (pay : ℚ) (q : Parcel) :
    (rev2Pay p pay q).pid = q.pid := rfl

theorem rev3SetPaid_pid (q : Parcel) : (rev3SetPaid q).pid = q.pid := rfl

theorem pid_unique : ∀ {ps : List Parcel}, (ps.map Parcel.pid).Nodup →
    ∀ {p q : Parcel}, p ∈ ps → q ∈ ps → p.pid = q.pid → p = q := by
  intro ps
  induction ps with
  | nil => intro _ p q hp; cases hp
  | cons a rest ih =>
    intro hnd p q hp hq hpq
    rw [List.map_cons, List.nodup_cons] at hnd
    rcases List.mem_cons.mp hp with hpa | hp
    · rcases List.mem_cons.mp hq with hqa | hq
      · rw [hpa, hqa]
      · exfalso
        apply hnd.1
        rw [hpa] at hpq
        rw [hpq]
        exact List.mem_map_of_mem Parcel.pid hq
    · rcases List.mem_cons.mp hq with hqa | hq
      · exfalso
        apply hnd.1
        rw [hqa] at hpq
        rw [← hpq]
        exact List.mem_map_of_mem Parcel.pid hp
      · exact ih hnd.2 hp hq hpq

theorem updateParcel_pid_map (ps : List Parcel) (pid0 : Nat) (f : Parcel → Parcel)
    (hf : ∀ q, (f q).pid = q.pid) :
    (updateParcel ps pid0 f).map Parcel.pid = ps.map Parcel.pid := by
  unfold updateParcel
  rw [List.map_map]
  apply List.map_congr_left
  intro a _
  by_cases h : a.pid = pid0 <;> simp [h, hf]

theorem mem_updateParcel {q : Parcel} {ps : List Parcel} {pid0 : Nat} {f : Parcel → Parcel} :
    q ∈ updateParcel ps pid0 f ↔
      ∃ p, p ∈ ps ∧ (if (p.pid == pid0) = true then f p else p) = q := by
  simp [updateParcel, List.mem_map]

theorem updateParcel_skip {q : Parcel} {ps : List Parcel} {pid0 : Nat} {f : Parcel → Parcel}
    (hq : q ∈ ps) (h : q.pid ≠ pid0) : q ∈ updateParcel ps pid0 f := by
  rw [mem_updateParcel]
  exact ⟨q, hq, by simp [h]⟩

theorem updateParcel_id {ps : List Parcel} {pid0 : Nat} {f : Parcel → Parcel}
    (h : ∀ p ∈ ps, p.pid ≠ pid0) : updateParcel ps pid0 f = ps := by
  unfold updateParcel
  conv_rhs => rw [← List.map_id ps]
  apply List.map_congr_left
  intro a ha
  simp [h a ha]

/-! ## Lemmas about the revision 2 distribution loop -/

theorem rev2Loop_nil (em : String) (r : ℚ) (db : List Parcel) (recs : List CashOutRecord) :
    rev2Loop em [] r db recs = (db, recs) := rfl

theorem rev2Loop_stop (em : String) (snap : List Parcel) (r : ℚ) (db : List Parcel)
    (recs : List CashOutRecord) (h : r ≤ 0) :
    rev2Loop em snap r db recs = (db, recs) := by
  cases snap with
  | nil => rfl
  | cons p rest => simp [rev2Loop, h]

theorem rev2Loop_cons_pay (em : String) (p : Parcel) (rest : List Parcel) (r : ℚ)
    (db : List Parcel) (recs : List CashOutRecord) (h0 : ¬ r ≤ 0) (hav : 0 < availableOf p) :
    rev2Loop em (p :: rest) r db recs =
      rev2Loop em rest (r - min r (availableOf p))
        (updateParcel db p.pid (rev2Pay p (min r (availableOf p))))
        (recs ++ [mkRec (some em) p.pid (min r (availableOf p))]) := by
  simp [rev2Loop, h0, hav]

theorem rev2Loop_cons_skip (em : String) (p : Parcel) (rest : List Parcel) (r : ℚ)
    (db : List Parcel) (recs : List CashOutRecord) (h0 : ¬ r ≤ 0) (hav : ¬ 0 < availableOf p) :
    rev2Loop em (p :: rest) r db recs = rev2Loop em rest r db recs := by
  simp [rev2Loop, h0, hav]

theorem rev2Loop_acc (em : String) :
    ∀ (snap : List Parcel) (r : ℚ) (db : List Parcel) (recs : List CashOutRecord),
    rev2Loop em snap r db recs =
      ((rev2Loop em snap r db []).fst, recs ++ (rev2Loop em snap r db []).snd) := by
  intro snap
  induction snap with
  | nil => intro r db recs; simp [rev2Loop_nil]
  | cons p rest ih =>
    intro r db recs
    by_cases h0 : r ≤ 0
    · simp [rev2Loop_stop _ _ _ _ _ h0]
    · by_cases hav : 0 < availableOf p
      · rw [rev2Loop_cons_pay _ _ _ _ _ _ h0 hav, rev2Loop_cons_pay _ _ _ _ _ _ h0 hav,
          ih, ih _ _ ([] ++ [mkRec (some em) p.pid (min r (availableOf p))])]
        simp
      · rw [rev2Loop_cons_skip _ _ _ _ _ _ h0 hav, rev2Loop_cons_skip _ _ _ _ _ _ h0 hav, ih]

theorem posAvail_nil : posAvail [] = 0 := rfl

theorem posAvail_cons (p : Parcel) (rest : List Parcel) :
    posAvail (p :: rest) = max (availableOf p) 0 + posAvail rest := by
  simp [posAvail]

theorem posAvail_nonneg (ps : List Parcel) : 0 ≤ posAvail ps := by
  induction ps with
  | nil => simp [posAvail]
  | cons p rest ih =>
    rw [posAvail_cons]
    have h := le_max_right (availableOf p) 0
    linarith

theorem totalAvailable_le_posAvail (ps : List Parcel) :
    rev2TotalAvailable ps ≤ posAvail ps := by
  induction ps with
  | nil => simp [rev2TotalAvailable, posAvail]
  | cons p rest ih =>
    rw [posAvail_cons]
    have h1 : rev2TotalAvailable (p :: rest) = availableOf p + rev2TotalAvailable rest := by
      simp [rev2TotalAvailable]
    rw [h1]
    have h := le_max_left (availableOf p) 0
    linarith

theorem rev2Loop_plan_mem (em : String) :
    ∀ (snap : List Parcel) (r : ℚ) (db : List Parcel),
    ∀ rec ∈ (rev2Loop em snap r db []).snd,
      0 < rec.amount ∧ ∃ p, p ∈ snap ∧ rec.parcel_id = p.pid ∧ rec.amount ≤ availableOf p := by
  intro snap
  induction snap with
  | nil => intro r db rec h; rw [rev2Loop_nil] at h; simp at h
  | cons p rest ih =>
    intro r db rec hrec
    by_cases h0 : r ≤ 0
    · rw [rev2Loop_stop _ _ _ _ _ h0] at hrec
      simp at hrec
    · by_cases hav : 0 < availableOf p
      · rw [rev2Loop_cons_pay _ _ _ _ _ _ h0 hav, rev2Loop_acc] at hrec
        simp only [List.nil_append] at hrec
        rcases List.mem_append.mp hrec with h1 | h2
        · rw [List.mem_singleton] at h1
          subst h1
          constructor
          · exact lt_min (lt_of_not_le h0) hav
          · exact ⟨p, List.mem_cons_self p rest, rfl, min_le_right r (availableOf p)⟩
        · obtain ⟨hpos, q, hq, hid, hle⟩ := ih _ _ rec h2
          exact ⟨hpos, q, List.mem_cons_of_mem p hq, hid, hle⟩
      · rw [rev2Loop_cons_skip _ _ _ _ _ _ h0 hav] at hrec
        obtain ⟨hpos, q, hq, hid, hle⟩ := ih _ _ rec hrec
        exact ⟨hpos, q, List.mem_cons_of_mem p hq, hid, hle⟩

theorem rev2Loop_plan_sum (em : String) :
    ∀ (snap : List Parcel) (r : ℚ) (db : List Parcel),
    0 ≤ r → r ≤ posAvail snap →
    (((rev2Loop em snap r db []).snd).map CashOutRecord.amount).sum = r := by
  intro snap
  induction snap with
  | nil =>
    intro r db h0 hle
    rw [posAvail_nil] at hle
    rw [rev2Loop_nil]
    simp
    linarith
  | cons p rest ih =>
    intro r db h0 hle
    by_cases hr0 : r ≤ 0
    · rw [rev2Loop_stop _ _ _ _ _ hr0]
      simp
      linarith
    · rw [posAvail_cons] at hle
      by_cases hav : 0 < availableOf p
      · have hmaxp : max (availableOf p) 0 = availableOf p := max_eq_left (le_of_lt hav)
        rw [hmaxp] at hle
        rw [rev2Loop_cons_pay _ _ _ _ _ _ hr0 hav, rev2Loop_acc]
        simp only [List.nil_append]
        rw [List.map_append, List.sum_append]
        have hmin1 : min r (availableOf p) ≤ r := min_le_left _ _
        have h0' : 0 ≤ r - min r (availableOf p) := by linarith
        have hle' : r - min r (availableOf p) ≤ posAvail rest := by
          rcases le_total r (availableOf p) with hc | hc
          · rw [min_eq_left hc]
            have h := posAvail_nonneg rest
            linarith
          · rw [min_eq_right hc]
            linarith
        rw [ih _ _ h0' hle']
        simp [mkRec]
      · rw [rev2Loop_cons_skip _ _ _ _ _ _ hr0 hav]
        apply ih _ _ h0
        have hmaxp : max (availableOf p) 0 = 0 := max_eq_right (le_of_not_lt hav)
        rw [hmaxp] at hle
        linarith

theorem rev2Loop_plan_sublist (em : String) :
    ∀ (snap : List Parcel) (r : ℚ) (db : List Parcel),
    List.Sublist (((rev2Loop em snap r db []).snd).map CashOutRecord.parcel_id)
      (snap.map Parcel.pid) := by
  intro snap
  induction snap with
  | nil => intro r db; rw [rev2Loop_nil]; simp
  | cons p rest ih =>
    intro r db
    by_cases h0 : r ≤ 0
    · rw [rev2Loop_stop _ _ _ _ _ h0]
      simp
    · by_cases hav : 0 < availableOf p
      · rw [rev2Loop_cons_pay _ _ _ _ _ _ h0 hav, rev2Loop_acc]
        simp only [List.nil_append, List.map_append, List.map_cons, List.map_nil,
          List.singleton_append, List.cons_append]
        exact List.Sublist.cons₂ p.pid (ih _ _)
      · rw [rev2Loop_cons_skip _ _ _ _ _ _ h0 hav]
        exact List.Sublist.cons p.pid (ih _ _)

theorem rev2Loop_plan_exhaust (em : String) :
    ∀ (snap : List Parcel) (r : ℚ) (db : List Parcel),
    ∀ rec ∈ ((rev2Loop em snap r db []).snd).dropLast,
      ∃ p, p ∈ snap ∧ rec.parcel_id = p.pid ∧ rec.amount = availableOf p := by
  intro snap
  induction snap with
  | nil => intro r db rec h; rw [rev2Loop_nil] at h; simp at h
  | cons p rest ih =>
    intro r db rec hrec
    by_cases h0 : r ≤ 0
    · rw [rev2Loop_stop _ _ _ _ _ h0] at hrec
      simp at hrec
    · by_cases hav : 0 < availableOf p
      · rw [rev2Loop_cons_pay _ _ _ _ _ _ h0 hav, rev2Loop_acc] at hrec
        simp only [List.nil_append, List.singleton_append] at hrec
        rcases hS : (rev2Loop em rest (r - min r (availableOf p))
            (updateParcel db p.pid (rev2Pay p (min r (availableOf p)))) []).snd with _ | ⟨s0, S2⟩
        · rw [hS] at hrec
          simp at hrec
        · rw [hS] at hrec
          have hdrop : (mkRec (some em) p.pid (min r (availableOf p)) :: s0 :: S2).dropLast =
              mkRec (some em) p.pid (min r (availableOf p)) :: (s0 :: S2).dropLast := rfl
          rw [hdrop] at hrec
          rcases List.mem_cons.mp hrec with h1 | h2
          · -- the head record pays the full available amount, because the
            -- loop emitted a later record, so remaining was still positive
            have hrpos : ¬ r - min r (availableOf p) ≤ 0 := by
              intro hle0
              rw [rev2Loop_stop _ _ _ _ _ hle0] at hS
              cases hS
            have hmin : min r (availableOf p) = availableOf p := by
              rcases le_total r (availableOf p) with hc | hc
              · exfalso
                rw [min_eq_left hc] at hrpos
                simp at hrpos
              · exact min_eq_right hc
            refine ⟨p, List.mem_cons_self p rest, ?_, ?_⟩
            · rw [h1]
              rfl
            · rw [h1]
              exact hmin
          · rw [← hS] at h2
            obtain ⟨q, hq, hid, hamt⟩ := ih _ _ rec h2
            exact ⟨q, List.mem_cons_of_mem p hq, hid, hamt⟩
      · rw [rev2Loop_cons_skip _ _ _ _ _ _ h0 hav] at hrec
        obtain ⟨q, hq, hid, hamt⟩ := ih _ _ rec hrec
        exact ⟨q, List.mem_cons_of_mem p hq, hid, hamt⟩

/-! ## Lemmas about the revision 3 distribution loop -/

theorem rev3Loop_nil (em : String) (r : ℚ) (db : List Parcel) (recs : List CashOutRecord) :
    rev3Loop em [] r db recs = (db, recs) := rfl

theorem rev3Loop_stop (em : String) (snap : List Parcel) (r : ℚ) (db : List Parcel)
    (recs : List CashOutRecord) (h : r ≤ 0) :
    rev3Loop em snap r db recs = (db, recs) := by
  cases snap with
  | nil => rfl
  | cons p rest => simp [rev3Loop, h]

theorem rev3Loop_cons (em : String) (p : Parcel) (rest : List Parcel) (r : ℚ)
    (db : List Parcel) (recs : List CashOutRecord) (h0 : ¬ r ≤ 0) :
    rev3Loop em (p :: rest) r db recs =
      rev3Loop em rest (r - min r (p.earning.getD 0)) (updateParcel db p.pid rev3SetPaid)
        (recs ++ [mkRec (some em) p.pid (min r (p.earning.getD 0))]) := by
  simp [rev3Loop, h0]

theorem rev3Loop_flag (em : String) :
    ∀ (snap : List Parcel) (r : ℚ) (db : List Parcel) (recs : List CashOutRecord),
    ∀ q ∈ (rev3Loop em snap r db recs).fst, q ∈ db ∨ q.earning_paid = true := by
  intro snap
  induction snap with
  | nil => intro r db recs q hq; exact Or.inl hq
  | cons p rest ih =>
    intro r db recs q hq
    by_cases h0 : r ≤ 0
    · rw [rev3Loop_stop _ _ _ _ _ h0] at hq
      exact Or.inl hq
    · rw [rev3Loop_cons _ _ _ _ _ _ h0] at hq
      rcases ih _ _ _ q hq with hq1 | hflag
      · rw [mem_updateParcel] at hq1
        obtain ⟨q0, hq0, hq0e⟩ := hq1
        by_cases hc : (q0.pid == p.pid) = true
        · rw [if_pos hc] at hq0e
          right
          rw [← hq0e]
          rfl
        · rw [if_neg hc] at hq0e
          rw [← hq0e]
          exact Or.inl hq0
      · exact Or.inr hflag

/-! ## The parcel invariant under revision 2 updates -/

theorem rev2Pay_inv (p : Parcel) (pay : ℚ) (hp0 : 0 ≤ p.paid_amount.getD 0)
    (hpos : 0 < pay) (hle : pay ≤ availableOf p) :
    earningsInvariant (rev2Pay p pay p) := by
  unfold availableOf at hle
  refine ⟨?_, ?_, ?_⟩
  · simp only [rev2Pay, Option.getD_some]
    linarith
  · simp only [rev2Pay, Option.getD_some]
    linarith
  · simp [rev2Pay]

theorem sum_map_updateParcel (term : Parcel → ℚ) (f : Parcel → Parcel) :
    ∀ (ps : List Parcel), (ps.map Parcel.pid).Nodup →
    ∀ {p : Parcel}, p ∈ ps →
    ((updateParcel ps p.pid f).map term).sum = ((ps.map term).sum - term p) + term (f p) := by
  intro ps
  induction ps with
  | nil => intro _ p hp; cases hp
  | cons a rest ih =>
    intro hnd p hp
    rw [List.map_cons, List.nodup_cons] at hnd
    have hcons : updateParcel (a :: rest) p.pid f =
        (if a.pid == p.pid then f a else a) :: updateParcel rest p.pid f := rfl
    rcases List.mem_cons.mp hp with hpa | hp
    · have hrest : updateParcel rest p.pid f = rest := by
        apply updateParcel_id
        intro q hq hqe
        apply hnd.1
        have h2 : q.pid = a.pid := by rw [hqe, hpa]
        rw [← h2]
        exact List.mem_map_of_mem Parcel.pid hq
      have hhead : (a.pid == p.pid) = true := by
        simp [hpa]
      rw [hcons, if_pos hhead, hrest, List.map_cons, List.sum_cons,
        List.map_cons, List.sum_cons, hpa]
      ring
    · have hne : a.pid ≠ p.pid := by
        intro hcontra
        apply hnd.1
        rw [hcontra]
        exact List.mem_map_of_mem Parcel.pid hp
      have hneg : ¬ ((a.pid == p.pid) = true) := by
        simp [hne]
      rw [hcons, if_neg hneg, List.map_cons, List.sum_cons, ih hnd.2 hp,
        List.map_cons, List.sum_cons]
      ring

theorem rev2Loop_inv (em : String) :
    ∀ (snap : List Parcel) (r : ℚ) (db : List Parcel) (recs : List CashOutRecord),
    (db.map Parcel.pid).Nodup →
    (snap.map Parcel.pid).Nodup →
    (∀ p ∈ snap, p ∈ db) →
    (∀ p ∈ db, 0 ≤ p.paid_amount.getD 0) →
    ∀ q ∈ (rev2Loop em snap r db recs).fst,
      q ∈ db ∨ earningsInvariant q := by
  intro snap
  induction snap with
  | nil => intro r db recs _ _ _ _ q hq; exact Or.inl hq
  | cons p rest ih =>
    intro r db recs hdb hsnap hsub hpaid q hq
    by_cases h0 : r ≤ 0
    · rw [rev2Loop_stop _ _ _ _ _ h0] at hq
      exact Or.inl hq
    · rw [List.map_cons, List.nodup_cons] at hsnap
      by_cases hav : 0 < availableOf p
      · rw [rev2Loop_cons_pay _ _ _ _ _ _ h0 hav] at hq
        have hpmem : p ∈ db := hsub p (List.mem_cons_self p rest)
        have hpos : (0:ℚ) < min r (availableOf p) := lt_min (lt_of_not_le h0) hav
        have hdb1nd : ((updateParcel db p.pid (rev2Pay p (min r (availableOf p)))).map
            Parcel.pid).Nodup := by
          rw [updateParcel_pid_map _ _ _ (rev2Pay_pid p (min r (availableOf p)))]
          exact hdb
        have hsub1 : ∀ q2 ∈ rest, q2 ∈ updateParcel db p.pid (rev2Pay p (min r (availableOf p))) := by
          intro q2 hq2
          apply updateParcel_skip (hsub q2 (List.mem_cons_of_mem p hq2))
          intro hcontra
          exact hsnap.1 (hcontra ▸ List.mem_map_of_mem Parcel.pid hq2)
        have hpaid1 : ∀ q2 ∈ updateParcel db p.pid (rev2Pay p (min r (availableOf p))),
            0 ≤ q2.paid_amount.getD 0 := by
          intro q2 hq2
          rw [mem_updateParcel] at hq2
          obtain ⟨q0, hq0, hq0e⟩ := hq2
          by_cases hc : (q0.pid == p.pid) = true
          · rw [if_pos hc] at hq0e
            rw [← hq0e]
            have hq00 := hpaid q0 hq0
            simp only [rev2Pay, Option.getD_some]
            linarith
          · rw [if_neg hc] at hq0e
            rw [← hq0e]
            exact hpaid q0 hq0
        rcases ih _ _ _ hdb1nd hsnap.2 hsub1 hpaid1 q hq with hq1 | hinv
        · rw [mem_updateParcel] at hq1
          obtain ⟨q0, hq0, hq0e⟩ := hq1
          by_cases hc : (q0.pid == p.pid) = true
          · have hq0p : q0 = p := pid_unique hdb hq0 hpmem (beq_iff_eq.mp hc)
            rw [if_pos hc, hq0p] at hq0e
            right
            rw [← hq0e]
            exact rev2Pay_inv p (min r (availableOf p)) (hpaid p hpmem) hpos
              (min_le_right _ _)
          · rw [if_neg hc] at hq0e
            rw [← hq0e]
            exact Or.inl hq0
        · exact Or.inr hinv
      · rw [rev2Loop_cons_skip _ _ _ _ _ _ h0 hav] at hq
        exact ih _ _ _ hdb hsnap.2 (fun q2 hq2 => hsub q2 (List.mem_cons_of_mem p hq2))
          hpaid q hq

/-! ## Conservation of the outstanding-balance total under the loop -/

theorem specAvailTerm_rev2Pay (em : String) (p : Parcel) (pay : ℚ)
    (hpred : rev2EligPred em p = true) (hav : 0 < availableOf p) (hle : pay ≤ availableOf p) :
    specAvailTerm em (rev2Pay p pay p) = specAvailTerm em p - pay := by
  have hpred2 : rev2EligPred em (rev2Pay p pay p) = rev2EligPred em p := rfl
  have hav2 : availableOf (rev2Pay p pay p) = availableOf p - pay := by
    unfold availableOf
    have hcomm : commission (rev2Pay p pay p) = commission p := rfl
    rw [hcomm]
    simp only [rev2Pay, Option.getD_some]
    ring
  unfold specAvailTerm
  rw [hpred2, if_pos hpred, if_pos hpred, hav2, max_eq_left (by linarith),
    max_eq_left (le_of_lt hav)]

theorem rev2Loop_specTotal (em : String) :
    ∀ (snap : List Parcel) (r : ℚ) (db : List Parcel),
    (db.map Parcel.pid).Nodup →
    (snap.map Parcel.pid).Nodup →
    (∀ p ∈ snap, p ∈ db) →
    (∀ p ∈ snap, rev2EligPred em p = true) →
    specTotalAvailable (rev2Loop em snap r db []).fst em =
      specTotalAvailable db em -
        (((rev2Loop em snap r db []).snd).map CashOutRecord.amount).sum := by
  intro snap
  induction snap with
  | nil =>
    intro r db _ _ _ _
    rw [rev2Loop_nil]
    simp
  | cons p rest ih =>
    intro r db hdb hsnap hsub hpred
    by_cases h0 : r ≤ 0
    · rw [rev2Loop_stop _ _ _ _ _ h0]
      simp
    · rw [List.map_cons, List.nodup_cons] at hsnap
      by_cases hav : 0 < availableOf p
      · rw [rev2Loop_cons_pay _ _ _ _ _ _ h0 hav, rev2Loop_acc]
        simp only [List.nil_append]
        have hpmem : p ∈ db := hsub p (List.mem_cons_self p rest)
        have hdb1nd : ((updateParcel db p.pid (rev2Pay p (min r (availableOf p)))).map
            Parcel.pid).Nodup := by
          rw [updateParcel_pid_map _ _ _ (rev2Pay_pid p (min r (availableOf p)))]
          exact hdb
        have hsub1 : ∀ q ∈ rest,
            q ∈ updateParcel db p.pid (rev2Pay p (min r (availableOf p))) := by
          intro q hq
          apply updateParcel_skip (hsub q (List.mem_cons_of_mem p hq))
          intro hcontra
          exact hsnap.1 (hcontra ▸ List.mem_map_of_mem Parcel.pid hq)
        have hupd : specTotalAvailable
            (updateParcel db p.pid (rev2Pay p (min r (availableOf p)))) em =
            (specTotalAvailable db em - specAvailTerm em p) +
              specAvailTerm em (rev2Pay p (min r (availableOf p)) p) :=
          sum_map_updateParcel (specAvailTerm em) (rev2Pay p (min r (availableOf p))) db hdb hpmem
        rw [ih _ _ hdb1nd hsnap.2 hsub1
          (fun q hq => hpred q (List.mem_cons_of_mem p hq)), hupd,
          specAvailTerm_rev2Pay em p _ (hpred p (List.mem_cons_self p rest)) hav
            (min_le_right _ _),
          List.map_append, List.sum_append]
        simp only [List.map_cons, List.map_nil, List.sum_cons, List.sum_nil, mkRec]
        ring
      · rw [rev2Loop_cons_skip _ _ _ _ _ _ h0 hav]
        exact ih _ _ hdb hsnap.2 (fun q hq => hsub q (List.mem_cons_of_mem p hq))
          (fun q hq => hpred q (List.mem_cons_of_mem p hq))

/-! ## Eligibility queries and handler branches -/

theorem rev2Eligible_sublist (ps : List Parcel) (em : String) :
    List.Sublist (rev2Eligible ps em) ps :=
  List.filter_sublist ps

theorem rev2Eligible_pid_nodup (ps : List Parcel) (em : String)
    (h : (ps.map Parcel.pid).Nodup) : ((rev2Eligible ps em).map Parcel.pid).Nodup :=
  List.Nodup.sublist ((rev2Eligible_sublist ps em).map Parcel.pid) h

theorem mem_rev2Eligible {p : Parcel} {ps : List Parcel} {em : String}
    (h : p ∈ rev2Eligible ps em) : p ∈ ps ∧ rev2EligPred em p = true :=
  List.mem_filter.mp h

theorem isEmpty_false_of_ne_nil {l : List Parcel} (h : l ≠ []) : l.isEmpty = false := by
  cases l with
  | nil => exact absurd rfl h
  | cons a t => rfl

theorem rev2CashOut_single_eq (st : ServerState) (re : Option String) (pid0 : Nat) (amt : ℚ)
    (hmin : ¬ amt < 200) :
    rev2CashOut st (some pid0) re (some amt) = rev2Single st re pid0 amt := by
  simp [rev2CashOut, hmin]

theorem rev2CashOut_riderwide_success (st : ServerState) (em : String) (amt : ℚ)
    (hmin : ¬ amt < 200)
    (hne : rev2Eligible st.parcels em ≠ [])
    (hle : ¬ rev2TotalAvailable (rev2Eligible st.parcels em) < amt) :
    rev2CashOut st none (some em) (some amt) =
      (.ok amt,
       { parcels := (rev2Loop em (rev2Eligible st.parcels em) amt st.parcels []).fst,
         cashouts := st.cashouts ++
           (rev2Loop em (rev2Eligible st.parcels em) amt st.parcels []).snd }) := by
  have hemp := isEmpty_false_of_ne_nil hne
  simp [rev2CashOut, rev2RiderWide, hmin, hemp, hle]

theorem rev3CashOut_single_eq (st : ServerState) (em : Option String) (pid0 : Nat) (amt : ℚ)
    (hmin : ¬ amt < 200) :
    rev3CashOut st (some pid0) em (some amt) = rev3Single st pid0 amt := by
  simp [rev3CashOut, hmin]

theorem rev3CashOut_riderwide_success (st : ServerState) (em : String) (amt : ℚ)
    (hmin : ¬ amt < 200)
    (hne : rev3Eligible st.parcels em ≠ [])
    (hle : ¬ rev3TotalAvailable (rev3Eligible st.parcels em) < amt) :
    rev3CashOut st none (some em) (some amt) =
      (.ok amt,
       { parcels := (rev3Loop em (rev3Eligible st.parcels em) amt st.parcels []).fst,
         cashouts := st.cashouts ++
           (rev3Loop em (rev3Eligible st.parcels em) amt st.parcels []).snd }) := by
  have hemp : (rev3Eligible st.parcels em).isEmpty = false := by
    cases h : rev3Eligible st.parcels em with
    | nil => exact absurd h hne
    | cons a t => rfl
  simp [rev3CashOut, rev3RiderWide, hmin, hemp, hle]

/-! ## Claim C8: the minimum-amount guard -/

/-- C8: a cash-out request whose amount is missing or below the configured
minimum of 200 fails with `BelowMinimum` in both revisions, for every store
state and every request shape, and leaves the state unchanged — in
particular the outcome is computed without consulting any parcel or ledger
record. -/
theorem c8_below_minimum (st : ServerState) (pid : Option Nat) (re em : Option String)
    (amt : Option ℚ) (h : amt.getD 0 < 200) :
    rev2CashOut st pid re amt = (.err .belowMinimum, st) ∧
    rev3CashOut st pid em amt = (.err .belowMinimum, st) := by
  constructor
  · simp [rev2CashOut, h]
  · simp [rev3CashOut, h]

/-- Witness for C8 at scenario E of the spec: a request of 100 (and a
request with a missing amount) is rejected by both handlers on a concrete
store. -/
theorem c8_below_minimum_witness :
    rev2CashOut { parcels := [], cashouts := [] } none none (some 100) =
      (.err .belowMinimum, { parcels := [], cashouts := [] }) ∧
    rev3CashOut { parcels := [], cashouts := [] } none none (some 100) =
      (.err .belowMinimum, { parcels := [], cashouts := [] }) :=
  c8_below_minimum { parcels := [], cashouts := [] } none none none (some 100)
    (by norm_num)

/-! ## Claim C3: rider-wide over-request -/

/-- C3 (amended): with a non-empty eligible set, a rider-wide request for
more than the total available fails with `InsufficientEarnings` and changes
nothing, where revision 2 measures the total as the sum of outstanding
balances (recomputed commission minus `paid_amount`) and revision 3
measures it as the sum of stored `earning` fields, ignoring `paid_amount`. -/
theorem c3_amended :
    (∀ (st : ServerState) (em : String) (amt : ℚ), ¬ amt < 200 →
      rev2Eligible st.parcels em ≠ [] →
      rev2TotalAvailable (rev2Eligible st.parcels em) < amt →
      rev2CashOut st none (some em) (some amt) = (.err .exceedsAvailable, st)) ∧
    (∀ (st : ServerState) (em : String) (amt : ℚ), ¬ amt < 200 →
      rev3Eligible st.parcels em ≠ [] →
      rev3TotalAvailable (rev3Eligible st.parcels em) < amt →
      rev3CashOut st none (some em) (some amt) = (.err .exceedsAvailable, st)) := by
  constructor
  · intro st em amt hmin hne hgt
    have hemp := isEmpty_false_of_ne_nil hne
    simp [rev2CashOut, rev2RiderWide, hmin, hemp, hgt]
  · intro st em amt hmin hne hgt
    have hemp : (rev3Eligible st.parcels em).isEmpty = false := by
      cases h : rev3Eligible st.parcels em with
      | nil => exact absurd h hne
      | cons a t => rfl
    simp [rev3CashOut, rev3RiderWide, hmin, hemp, hgt]

/-! ## Claim C5: the eligibility filter and the empty case -/

/-- C5 (amended): revision 3's eligible set is exactly the parcels assigned
to the rider with terminal delivery status and `earning_paid` unset, and an
empty eligible set fails with `NoEarningsAvailable`; revision 2's query
omits the `earning_paid` condition (assigned and terminal only), and its
empty-query case also fails with `NoEarningsAvailable`. -/
theorem c5_amended :
    (∀ (ps : List Parcel) (em : String) (p : Parcel),
      p ∈ rev3Eligible ps em ↔
        (p ∈ ps ∧ p.assigned_rider = some em ∧ isTerminal p.delivery_status = true ∧
          p.earning_paid = false)) ∧
    (∀ (st : ServerState) (em : String) (amt : ℚ), ¬ amt < 200 →
      rev3Eligible st.parcels em = [] →
      rev3CashOut st none (some em) (some amt) = (.err .noEarnings, st)) ∧
    (∀ (ps : List Parcel) (em : String) (p : Parcel),
      p ∈ rev2Eligible ps em ↔
        (p ∈ ps ∧ p.assigned_rider = some em ∧ isTerminal p.delivery_status = true)) ∧
    (∀ (st : ServerState) (em : String) (amt : ℚ), ¬ amt < 200 →
      rev2Eligible st.parcels em = [] →
      rev2CashOut st none (some em) (some amt) = (.err .noEarnings, st)) := by
  refine ⟨?_, ?_, ?_, ?_⟩
  · intro ps em p
    simp [rev3Eligible, List.mem_filter, rev3EligPred, and_assoc]
  · intro st em amt hmin hemp
    simp [rev3CashOut, rev3RiderWide, hmin, hemp]
  · intro ps em p
    simp [rev2Eligible, List.mem_filter, rev2EligPred, and_assoc]
  · intro st em amt hmin hemp
    simp [rev2CashOut, rev2RiderWide, hmin, hemp]

/-! ## Claim C6: named-parcel over-request -/

/-- C6 (amended): for a named parcel with a positive outstanding balance,
revision 2 rejects a request exceeding that balance with
`InsufficientEarnings` and changes nothing; revision 3 instead silently
caps the payment at `min(amount, stored earning)` and reports success. -/
theorem c6_amended :
    (∀ (st : ServerState) (re : Option String) (pid0 : Nat) (amt : ℚ) (parcel : Parcel),
      ¬ amt < 200 →
      findParcel st.parcels pid0 = some parcel →
      0 < availableOf parcel →
      availableOf parcel < amt →
      rev2CashOut st (some pid0) re (some amt) = (.err .exceedsRemaining, st)) ∧
    (∀ (st : ServerState) (pid0 : Nat) (amt : ℚ) (parcel : Parcel),
      ¬ amt < 200 →
      findParcel st.parcels pid0 = some parcel →
      parcel.earning_paid = false →
      (rev3CashOut st (some pid0) none (some amt)).fst =
        .ok (min amt (parcel.earning.getD 0))) := by
  constructor
  · intro st re pid0 amt parcel hmin hfind hpos hlt
    rw [rev2CashOut_single_eq st re pid0 amt hmin]
    unfold rev2Single
    rw [hfind]
    unfold availableOf at hpos hlt
    have h1 : ¬ commission parcel - parcel.paid_amount.getD 0 ≤ 0 := by linarith
    simp [h1, hlt]
  · intro st pid0 amt parcel hmin hfind hflag
    rw [rev3CashOut_single_eq st none pid0 amt hmin]
    unfold rev3Single
    rw [hfind]
    simp [hflag]

/-! ## Claim C10: named-parcel cash-out of a settled parcel -/

/-- C10 (amended): revision 2 rejects a named-parcel request when the
recomputed outstanding balance is zero or negative, with an
already-cashed-out error and no state change; revision 3 rejects only when
the `earning_paid` flag is already set. -/
theorem c10_amended :
    (∀ (st : ServerState) (re : Option String) (pid0 : Nat) (amt : ℚ) (parcel : Parcel),
      ¬ amt < 200 →
      findParcel st.parcels pid0 = some parcel →
      availableOf parcel ≤ 0 →
      rev2CashOut st (some pid0) re (some amt) = (.err .alreadyCashedOut, st)) ∧
    (∀ (st : ServerState) (pid0 : Nat) (amt : ℚ) (parcel : Parcel),
      ¬ amt < 200 →
      findParcel st.parcels pid0 = some parcel →
      parcel.earning_paid = true →
      rev3CashOut st (some pid0) none (some amt) = (.err .alreadyCashedOut, st)) := by
  constructor
  · intro st re pid0 amt parcel hmin hfind hle
    rw [rev2CashOut_single_eq st re pid0 amt hmin]
    unfold rev2Single
    rw [hfind]
    unfold availableOf at hle
    simp [hle]
  · intro st pid0 amt parcel hmin hfind hflag
    rw [rev3CashOut_single_eq st none pid0 amt hmin]
    unfold rev3Single
    rw [hfind]
    simp [hflag]


/-! ## Branch equations for the single-parcel paths -/

theorem rev2CashOut_riderwide_eq (st : ServerState) (em : String) (amt : ℚ)
    (hmin : ¬ amt < 200) :
    rev2CashOut st none (some em) (some amt) = rev2RiderWide st em amt := by
  simp [rev2CashOut, hmin]

theorem rev3CashOut_riderwide_eq (st : ServerState) (em : String) (amt : ℚ)
    (hmin : ¬ amt < 200) :
    rev3CashOut st none (some em) (some amt) = rev3RiderWide st em amt := by
  simp [rev3CashOut, hmin]

theorem rev2Single_success (st : ServerState) (re : Option String) (pid0 : Nat) (amt : ℚ)
    (parcel : Parcel) (hfind : findParcel st.parcels pid0 = some parcel)
    (h1 : ¬ commission parcel - parcel.paid_amount.getD 0 ≤ 0)
    (h2 : ¬ commission parcel - parcel.paid_amount.getD 0 < amt) :
    rev2Single st re pid0 amt =
      (.ok amt,
       { parcels := updateParcel st.parcels pid0 (rev2Pay parcel amt),
         cashouts := st.cashouts ++ [mkRec re pid0 amt] }) := by
  unfold rev2Single
  rw [hfind]
  simp [h1, h2]

theorem rev3Single_success (st : ServerState) (pid0 : Nat) (amt : ℚ)
    (parcel : Parcel) (hfind : findParcel st.parcels pid0 = some parcel)
    (hflag : parcel.earning_paid = false) :
    rev3Single st pid0 amt =
      (.ok (min amt (parcel.earning.getD 0)),
       { parcels := updateParcel st.parcels pid0 rev3SetPaid,
         cashouts := st.cashouts ++
           [mkRec parcel.assigned_rider pid0 (min amt (parcel.earning.getD 0))] }) := by
  unfold rev3Single
  rw [hfind]
  simp [hflag]

theorem rev2RiderWide_success (st : ServerState) (em : String) (amt : ℚ)
    (hne : rev2Eligible st.parcels em ≠ [])
    (hge : ¬ rev2TotalAvailable (rev2Eligible st.parcels em) < amt) :
    rev2RiderWide st em amt =
      (.ok amt,
       { parcels := (rev2Loop em (rev2Eligible st.parcels em) amt st.parcels []).fst,
         cashouts := st.cashouts ++
           (rev2Loop em (rev2Eligible st.parcels em) amt st.parcels []).snd }) := by
  simp [rev2RiderWide, isEmpty_false_of_ne_nil hne, hge]

theorem rev3RiderWide_success (st : ServerState) (em : String) (amt : ℚ)
    (hne : rev3Eligible st.parcels em ≠ [])
    (hge : ¬ rev3TotalAvailable (rev3Eligible st.parcels em) < amt) :
    rev3RiderWide st em amt =
      (.ok amt,
       { parcels := (rev3Loop em (rev3Eligible st.parcels em) amt st.parcels []).fst,
         cashouts := st.cashouts ++
           (rev3Loop em (rev3Eligible st.parcels em) amt st.parcels []).snd }) := by
  have hemp : (rev3Eligible st.parcels em).isEmpty = false := by
    cases h : rev3Eligible st.parcels em with
    | nil => exact absurd h hne
    | cons a t => rfl
  simp [rev3RiderWide, hemp, hge]

/-! ## Claim C1: the parcel invariant after an update -/

theorem findParcel_mem {ps : List Parcel} {pid0 : Nat} {p : Parcel}
    (h : findParcel ps pid0 = some p) : p ∈ ps ∧ p.pid = pid0 := by
  unfold findParcel at h
  constructor
  · exact List.mem_of_find?_eq_some h
  · have h2 := List.find?_some h
    simp only [beq_iff_eq] at h2
    exact h2

/-- C1 (amended): after any revision 2 cash-out (named-parcel or
rider-wide), every parcel in the store either is untouched or satisfies
`0 ≤ paid_amount ≤ earning` with `earning_paid` equal to
`paid_amount ≥ earning` (so a partial payment leaves the flag false),
provided parcel ids are unique and `paid_amount` was non-negative
beforehand; revision 3 instead sets `earning_paid` to `true` on every
parcel it touches, regardless of the amounts paid. -/
theorem c1_amended :
    (∀ (st : ServerState) (pid : Option Nat) (re : Option String) (amt : Option ℚ),
      (st.parcels.map Parcel.pid).Nodup →
      (∀ p ∈ st.parcels, 0 ≤ p.paid_amount.getD 0) →
      ∀ q ∈ (rev2CashOut st pid re amt).snd.parcels,
        q ∈ st.parcels ∨ earningsInvariant q) ∧
    (∀ (st : ServerState) (pid : Option Nat) (em : Option String) (amt : Option ℚ),
      ∀ q ∈ (rev3CashOut st pid em amt).snd.parcels,
        q ∈ st.parcels ∨ q.earning_paid = true) := by
  constructor
  · intro st pid re amt hnd hpaid q hq
    by_cases hmin : amt.getD 0 < 200
    · rw [show rev2CashOut st pid re amt = (.err .belowMinimum, st) by
        simp [rev2CashOut, hmin]] at hq
      exact Or.inl hq
    · cases amt with
      | none => exact absurd (by norm_num) hmin
      | some amt0 =>
        have hmin0 : ¬ amt0 < 200 := by simpa using hmin
        have hamt : (200:ℚ) ≤ amt0 := le_of_not_lt hmin0
        cases pid with
        | some pid0 =>
          rw [show rev2CashOut st (some pid0) re (some amt0) =
              rev2Single st re pid0 amt0 from rev2CashOut_single_eq st re pid0 amt0 hmin0] at hq
          cases hfind : findParcel st.parcels pid0 with
          | none =>
            rw [show rev2Single st re pid0 amt0 = (.err .parcelNotFound, st) by
              unfold rev2Single; rw [hfind]] at hq
            exact Or.inl hq
          | some parcel =>
            by_cases h1 : commission parcel - parcel.paid_amount.getD 0 ≤ 0
            · rw [show rev2Single st re pid0 amt0 = (.err .alreadyCashedOut, st) by
                unfold rev2Single; rw [hfind]; simp [h1]] at hq
              exact Or.inl hq
            · by_cases h2 : commission parcel - parcel.paid_amount.getD 0 < amt0
              · rw [show rev2Single st re pid0 amt0 = (.err .exceedsRemaining, st) by
                  unfold rev2Single; rw [hfind]; simp [h1, h2]] at hq
                exact Or.inl hq
              · rw [rev2Single_success st re pid0 amt0 parcel hfind h1 h2] at hq
                replace hq : q ∈ updateParcel st.parcels pid0 (rev2Pay parcel amt0) := hq
                rw [mem_updateParcel] at hq
                obtain ⟨q0, hq0, hq0e⟩ := hq
                have hpf := findParcel_mem hfind
                by_cases hc : (q0.pid == pid0) = true
                · have hq0p : q0 = parcel :=
                    pid_unique hnd hq0 hpf.1 (by rw [beq_iff_eq.mp hc, hpf.2])
                  rw [if_pos hc, hq0p] at hq0e
                  right
                  rw [← hq0e]
                  apply rev2Pay_inv parcel amt0 (hpaid parcel hpf.1)
                  · linarith
                  · unfold availableOf
                    linarith [le_of_not_lt h2]
                · rw [if_neg hc] at hq0e
                  rw [← hq0e]
                  exact Or.inl hq0
        | none =>
          cases re with
          | none =>
            rw [show rev2CashOut st none none (some amt0) = (.err .missingTarget, st) by
              simp [rev2CashOut, hmin0]] at hq
            exact Or.inl hq
          | some em =>
            rw [rev2CashOut_riderwide_eq st em amt0 hmin0] at hq
            by_cases hemp : rev2Eligible st.parcels em = []
            · rw [show rev2RiderWide st em amt0 = (.err .noEarnings, st) by
                simp [rev2RiderWide, hemp]] at hq
              exact Or.inl hq
            · by_cases hlt : rev2TotalAvailable (rev2Eligible st.parcels em) < amt0
              · rw [show rev2RiderWide st em amt0 = (.err .exceedsAvailable, st) by
                  simp [rev2RiderWide, isEmpty_false_of_ne_nil hemp, hlt]] at hq
                exact Or.inl hq
              · rw [rev2RiderWide_success st em amt0 hemp hlt] at hq
                replace hq : q ∈ (rev2Loop em (rev2Eligible st.parcels em) amt0
                    st.parcels []).fst := hq
                exact rev2Loop_inv em (rev2Eligible st.parcels em) amt0 st.parcels []
                  hnd (rev2Eligible_pid_nodup st.parcels em hnd)
                  (fun p hp => (mem_rev2Eligible hp).1) hpaid q hq
  · intro st pid em amt q hq
    by_cases hmin : amt.getD 0 < 200
    · rw [show rev3CashOut st pid em amt = (.err .belowMinimum, st) by
        simp [rev3CashOut, hmin]] at hq
      exact Or.inl hq
    · cases amt with
      | none => exact absurd (by norm_num) hmin
      | some amt0 =>
        have hmin0 : ¬ amt0 < 200 := by simpa using hmin
        cases pid with
        | some pid0 =>
          rw [rev3CashOut_single_eq st em pid0 amt0 hmin0] at hq
          cases hfind : findParcel st.parcels pid0 with
          | none =>
            rw [show rev3Single st pid0 amt0 = (.err .parcelNotFound, st) by
              unfold rev3Single; rw [hfind]] at hq
            exact Or.inl hq
          | some parcel =>
            by_cases hflag : parcel.earning_paid = true
            · rw [show rev3Single st pid0 amt0 = (.err .alreadyCashedOut, st) by
                unfold rev3Single; rw [hfind]; simp [hflag]] at hq
              exact Or.inl hq
            · rw [rev3Single_success st pid0 amt0 parcel hfind
                (Bool.not_eq_true _ ▸ hflag : parcel.earning_paid = false)] at hq
              replace hq : q ∈ updateParcel st.parcels pid0 rev3SetPaid := hq
              rw [mem_updateParcel] at hq
              obtain ⟨q0, hq0, hq0e⟩ := hq
              by_cases hc : (q0.pid == pid0) = true
              · rw [if_pos hc] at hq0e
                right
                rw [← hq0e]
                rfl
              · rw [if_neg hc] at hq0e
                rw [← hq0e]
                exact Or.inl hq0
        | none =>
          cases em with
          | none =>
            rw [show rev3CashOut st none none (some amt0) = (.err .missingTarget, st) by
              simp [rev3CashOut, hmin0]] at hq
            exact Or.inl hq
          | some em0 =>
            rw [rev3CashOut_riderwide_eq st em0 amt0 hmin0] at hq
            by_cases hemp : rev3Eligible st.parcels em0 = []
            · rw [show rev3RiderWide st em0 amt0 = (.err .noEarnings, st) by
                simp [rev3RiderWide, hemp]] at hq
              exact Or.inl hq
            · by_cases hlt : rev3TotalAvailable (rev3Eligible st.parcels em0) < amt0
              · rw [show rev3RiderWide st em0 amt0 = (.err .exceedsAvailable, st) by
                  have hemp2 : (rev3Eligible st.parcels em0).isEmpty = false := by
                    cases h : rev3Eligible st.parcels em0 with
                    | nil => exact absurd h hemp
                    | cons a t => rfl
                  simp [rev3RiderWide, hemp2, hlt]] at hq
                exact Or.inl hq
              · rw [rev3RiderWide_success st em0 amt0 hemp hlt] at hq
                replace hq : q ∈ (rev3Loop em0 (rev3Eligible st.parcels em0) amt0
                    st.parcels []).fst := hq
                exact rev3Loop_flag em0 (rev3Eligible st.parcels em0) amt0
                  st.parcels [] q hq

/-! ## Claim C2: shape of a successful rider-wide settlement plan -/

/-- C2 (amended, revision 2 part): a successful revision 2 rider-wide
cash-out returns `ok amount` and appends a batch of cash-out records in
which every amount is strictly positive, every record points at an
eligible parcel and pays at most its outstanding balance at selection
time, and the amounts sum to exactly the requested amount. -/
theorem c2_amended (st : ServerState) (em : String) (amt : ℚ)
    (hmin : ¬ amt < 200)
    (hne : rev2Eligible st.parcels em ≠ [])
    (hle : ¬ rev2TotalAvailable (rev2Eligible st.parcels em) < amt) :
    (rev2CashOut st none (some em) (some amt)).fst = .ok amt ∧
    ∃ plan,
      (rev2CashOut st none (some em) (some amt)).snd.cashouts = st.cashouts ++ plan ∧
      (∀ rec ∈ plan, 0 < rec.amount ∧
        ∃ p, p ∈ rev2Eligible st.parcels em ∧ rec.parcel_id = p.pid ∧
          rec.amount ≤ availableOf p) ∧
      (plan.map CashOutRecord.amount).sum = amt := by
  rw [rev2CashOut_riderwide_eq st em amt hmin, rev2RiderWide_success st em amt hne hle]
  refine ⟨rfl, (rev2Loop em (rev2Eligible st.parcels em) amt st.parcels []).snd, rfl, ?_, ?_⟩
  · intro rec hrec
    exact rev2Loop_plan_mem em _ _ _ rec hrec
  · apply rev2Loop_plan_sum
    · have h200 : (200:ℚ) ≤ amt := le_of_not_lt hmin
      linarith
    · calc amt ≤ rev2TotalAvailable (rev2Eligible st.parcels em) := le_of_not_lt hle
        _ ≤ posAvail (rev2Eligible st.parcels em) := totalAvailable_le_posAvail _

/-! ## Claim C7: conservation of total_available (revision 2) -/

/-- C7 (amended, revision 2 part): a successful revision 2 rider-wide
settlement decreases the rider's `total_available` — the sum, over their
assigned and terminally-delivered parcels, of the positive part of
`earning - paid_amount` with `earning` the recomputed commission — by
exactly the requested amount, provided parcel ids are unique. -/
theorem c7_amended (st : ServerState) (em : String) (amt : ℚ)
    (hnd : (st.parcels.map Parcel.pid).Nodup)
    (hmin : ¬ amt < 200)
    (hne : rev2Eligible st.parcels em ≠ [])
    (hle : ¬ rev2TotalAvailable (rev2Eligible st.parcels em) < amt) :
    (rev2CashOut st none (some em) (some amt)).fst = .ok amt ∧
    specTotalAvailable (rev2CashOut st none (some em) (some amt)).snd.parcels em =
      specTotalAvailable st.parcels em - amt := by
  rw [rev2CashOut_riderwide_eq st em amt hmin, rev2RiderWide_success st em amt hne hle]
  refine ⟨rfl, ?_⟩
  show specTotalAvailable (rev2Loop em (rev2Eligible st.parcels em) amt st.parcels []).fst em =
    specTotalAvailable st.parcels em - amt
  rw [rev2Loop_specTotal em (rev2Eligible st.parcels em) amt st.parcels hnd
    (rev2Eligible_pid_nodup st.parcels em hnd)
    (fun p hp => (mem_rev2Eligible hp).1)
    (fun p hp => (mem_rev2Eligible hp).2)]
  rw [rev2Loop_plan_sum em (rev2Eligible st.parcels em) amt st.parcels
    (by have h200 : (200:ℚ) ≤ amt := le_of_not_lt hmin; linarith)
    (by calc amt ≤ rev2TotalAvailable (rev2Eligible st.parcels em) := le_of_not_lt hle
          _ ≤ posAvail (rev2Eligible st.parcels em) := totalAvailable_le_posAvail _)]

/-! ## Claim C9: order of the settlement plan (revision 2) -/

/-- C9 (amended): for every revision 2 rider-wide request, the batch of
appended cash-out records follows the order in which the unsorted
eligibility query returns the parcels (the store's order, not assignment
time), and every record before the last one pays its parcel's full
outstanding balance. -/
theorem c9_amended (st : ServerState) (em : String) (amtOpt : Option ℚ) :
    ∃ plan,
      (rev2CashOut st none (some em) amtOpt).snd.cashouts = st.cashouts ++ plan ∧
      List.Sublist (plan.map CashOutRecord.parcel_id)
        ((rev2Eligible st.parcels em).map Parcel.pid) ∧
      ∀ rec ∈ plan.dropLast, ∃ p, p ∈ rev2Eligible st.parcels em ∧
        rec.parcel_id = p.pid ∧ rec.amount = availableOf p := by
  by_cases hmin : amtOpt.getD 0 < 200
  · refine ⟨[], ?_, by simp, by simp⟩
    rw [show rev2CashOut st none (some em) amtOpt = (.err .belowMinimum, st) by
      simp [rev2CashOut, hmin]]
    simp
  · cases amtOpt with
    | none => exact absurd (by norm_num) hmin
    | some amt =>
      have hmin0 : ¬ amt < 200 := by simpa using hmin
      rw [rev2CashOut_riderwide_eq st em amt hmin0]
      by_cases hemp : rev2Eligible st.parcels em = []
      · refine ⟨[], ?_, by simp, by simp⟩
        rw [show rev2RiderWide st em amt = (.err .noEarnings, st) by
          simp [rev2RiderWide, hemp]]
        simp
      · by_cases hlt : rev2TotalAvailable (rev2Eligible st.parcels em) < amt
        · refine ⟨[], ?_, by simp, by simp⟩
          rw [show rev2RiderWide st em amt = (.err .exceedsAvailable, st) by
            simp [rev2RiderWide, isEmpty_false_of_ne_nil hemp, hlt]]
          simp
        · rw [rev2RiderWide_success st em amt hemp hlt]
          exact ⟨(rev2Loop em (rev2Eligible st.parcels em) amt st.parcels []).snd,
            rfl, rev2Loop_plan_sublist em _ _ _, rev2Loop_plan_exhaust em _ _ _⟩

/-! ## Claim C4: the commission formula and its inputs -/

/-- Erase a parcel's stored `earning` field, keeping everything else. -/
def stripEarning (p : Parcel) : Parcel :=
  { p with earning := none }

theorem findParcel_map_strip (ps : List Parcel) (pid0 : Nat) :
    findParcel (ps.map stripEarning) pid0 = (findParcel ps pid0).map stripEarning := by
  unfold findParcel
  rw [List.find?_map]
  rfl

theorem rev2Eligible_map_strip (ps : List Parcel) (em : String) :
    rev2Eligible (ps.map stripEarning) em = (rev2Eligible ps em).map stripEarning := by
  unfold rev2Eligible
  induction ps with
  | nil => rfl
  | cons p rest ih =>
    rw [List.map_cons, List.filter_cons, List.filter_cons]
    have hpred : rev2EligPred em (stripEarning p) = rev2EligPred em p := rfl
    rw [hpred]
    by_cases h : rev2EligPred em p = true
    · simp only [h, if_true, List.map_cons]
      rw [ih]
    · simp only [h, Bool.false_eq_true, if_false]
      exact ih

theorem rev2TotalAvailable_map_strip (ps : List Parcel) :
    rev2TotalAvailable (ps.map stripEarning) = rev2TotalAvailable ps := by
  unfold rev2TotalAvailable
  rw [List.map_map]
  rfl

theorem rev2Single_fst_strip (ps : List Parcel) (cs cs2 : List CashOutRecord)
    (re : Option String) (pid0 : Nat) (amt : ℚ) :
    (rev2Single { parcels := ps.map stripEarning, cashouts := cs } re pid0 amt).fst =
    (rev2Single { parcels := ps, cashouts := cs2 } re pid0 amt).fst := by
  unfold rev2Single
  rw [show ({ parcels := ps.map stripEarning, cashouts := cs } : ServerState).parcels =
      ps.map stripEarning from rfl,
    show ({ parcels := ps, cashouts := cs2 } : ServerState).parcels = ps from rfl,
    findParcel_map_strip]
  cases hfind : findParcel ps pid0 with
  | none => rfl
  | some parcel =>
    simp only [Option.map_some']
    have hc : commission (stripEarning parcel) = commission parcel := rfl
    have hp : (stripEarning parcel).paid_amount = parcel.paid_amount := rfl
    rw [hc, hp]
    by_cases h1 : commission parcel - parcel.paid_amount.getD 0 ≤ 0
    · simp [h1]
    · by_cases h2 : commission parcel - parcel.paid_amount.getD 0 < amt
      · simp [h1, h2]
      · simp [h1, h2]

theorem rev2RiderWide_fst_strip (ps : List Parcel) (cs cs2 : List CashOutRecord)
    (em : String) (amt : ℚ) :
    (rev2RiderWide { parcels := ps.map stripEarning, cashouts := cs } em amt).fst =
    (rev2RiderWide { parcels := ps, cashouts := cs2 } em amt).fst := by
  unfold rev2RiderWide
  rw [show ({ parcels := ps.map stripEarning, cashouts := cs } : ServerState).parcels =
      ps.map stripEarning from rfl,
    show ({ parcels := ps, cashouts := cs2 } : ServerState).parcels = ps from rfl,
    rev2Eligible_map_strip, rev2TotalAvailable_map_strip]
  by_cases hemp : rev2Eligible ps em = []
  · simp [hemp]
  · have h1 : ((rev2Eligible ps em).map stripEarning).isEmpty = false := by
      cases h : rev2Eligible ps em with
      | nil => exact absurd h hemp
      | cons a t => rfl
    rw [h1, isEmpty_false_of_ne_nil hemp]
    by_cases hlt : rev2TotalAvailable (rev2Eligible ps em) < amt
    · simp [hlt]
    · simp [hlt]

/-- C4 (amended): the commission revision 2 computes is
`cost * 0.10` for intra-region parcels and `cost * 0.20` otherwise, is 0
for a zero-cost parcel, and reads only `cost` and the region tags — the
observable outcome of the whole revision 2 handler is unchanged if every
stored `earning` field is erased.  (Revision 3, by contrast, reads the
stored `earning` field; see the counterexample.) -/
theorem c4_amended :
    (∀ p : Parcel, p.sender_region = p.receiver_region → commission p = p.cost * (1 / 10)) ∧
    (∀ p : Parcel, ¬ p.sender_region = p.receiver_region → commission p = p.cost * (1 / 5)) ∧
    (∀ p : Parcel, p.cost = 0 → commission p = 0) ∧
    (∀ (p : Parcel) (e : Option ℚ), commission { p with earning := e } = commission p) ∧
    (∀ (st : ServerState) (pid : Option Nat) (re : Option String) (amt : Option ℚ),
      (rev2CashOut { parcels := st.parcels.map stripEarning, cashouts := st.cashouts }
          pid re amt).fst =
        (rev2CashOut st pid re amt).fst) := by
  refine ⟨?_, ?_, ?_, ?_, ?_⟩
  · intro p h
    simp [commission, h]
  · intro p h
    simp [commission, h]
  · intro p h
    simp [commission, h]
  · intro p e
    rfl
  · intro st pid re amt
    by_cases hmin : amt.getD 0 < 200
    · simp [rev2CashOut, hmin]
    · cases amt with
      | none => exact absurd (by norm_num) hmin
      | some amt0 =>
        have hmin0 : ¬ amt0 < 200 := by simpa using hmin
        cases pid with
        | some pid0 =>
          rw [rev2CashOut_single_eq (ServerState.mk (st.parcels.map stripEarning) st.cashouts)
              re pid0 amt0 hmin0,
            rev2CashOut_single_eq st re pid0 amt0 hmin0]
          exact rev2Single_fst_strip st.parcels st.cashouts st.cashouts re pid0 amt0
        | none =>
          cases re with
          | none => simp [rev2CashOut, hmin0]
          | some em =>
            rw [rev2CashOut_riderwide_eq (ServerState.mk (st.parcels.map stripEarning)
                st.cashouts) em amt0 hmin0,
              rev2CashOut_riderwide_eq st em amt0 hmin0]
            exact rev2RiderWide_fst_strip st.parcels st.cashouts st.cashouts em amt0

/-! ## Concrete stores for the counterexamples -/

/-- Region tag used in the concrete stores. -/
def regionA : String := "dhaka"

/-- A second, distinct region tag. -/
def regionB : String := "sylhet"

/-- The rider identity used in the concrete stores. -/
def riderMain : String := "rider-main"

theorem regionA_ne_regionB : ¬ regionA = regionB := by decide

/-- Delivered intra-region parcel, commission 300, stored earning 300,
nothing paid yet. -/
def c1Parcel : Parcel :=
  { pid := 1, cost := 3000, sender_region := regionA, receiver_region := regionA,
    delivery_status := statusDelivered, assigned_rider := some riderMain,
    assigned_at := some 1, earning := some 300, paid_amount := none,
    earning_paid := false }

def c1St : ServerState := { parcels := [c1Parcel], cashouts := [] }

/-- C1 counterexample: a revision 3 rider-wide cash-out of 200 against a
single parcel whose earning is 300 succeeds and writes
`earning_paid = true` although `paid_amount` (still 0) is below `earning`
(300) — the flag disagrees with `paid_amount >= earning`, and the partial
payment did not leave it false. -/
theorem c1_counterexample :
    (rev3CashOut c1St none (some riderMain) (some 200)).fst = .ok 200 ∧
    (rev3CashOut c1St none (some riderMain) (some 200)).snd.parcels =
      [{ c1Parcel with earning_paid := true }] ∧
    ({ c1Parcel with earning_paid := true } : Parcel).paid_amount.getD 0 <
      ({ c1Parcel with earning_paid := true } : Parcel).earning.getD 0 := by
  refine ⟨?_, ?_, ?_⟩ <;>
    norm_num [rev3CashOut, rev3RiderWide, rev3Eligible, rev3EligPred, rev3TotalAvailable,
      rev3Loop, rev3SetPaid, updateParcel, mkRec, isTerminal, c1St, c1Parcel,
      statusDelivered, statusCenter, riderMain, List.filter]

/-- Delivered parcel with stored earning 0 (cost 0), unsettled flag. -/
def c2ParcelZero : Parcel :=
  { pid := 1, cost := 0, sender_region := regionA, receiver_region := regionA,
    delivery_status := statusDelivered, assigned_rider := some riderMain,
    assigned_at := some 1, earning := some 0, paid_amount := none,
    earning_paid := false }

/-- Delivered parcel with stored earning 300, unsettled flag. -/
def c2ParcelBig : Parcel :=
  { pid := 2, cost := 3000, sender_region := regionA, receiver_region := regionA,
    delivery_status := statusDelivered, assigned_rider := some riderMain,
    assigned_at := some 2, earning := some 300, paid_amount := none,
    earning_paid := false }

def c2St : ServerState := { parcels := [c2ParcelZero, c2ParcelBig], cashouts := [] }

/-- C2 counterexample: a successful revision 3 rider-wide cash-out of 200
emits a ZERO-amount record for the eligible zero-earning parcel — the
claimed strict positivity of every emitted amount fails on revision 3. -/
theorem c2_counterexample :
    (rev3CashOut c2St none (some riderMain) (some 200)).fst = .ok 200 ∧
    (rev3CashOut c2St none (some riderMain) (some 200)).snd.cashouts =
      [mkRec (some riderMain) 1 0, mkRec (some riderMain) 2 200] ∧
    ¬ (0:ℚ) < (mkRec (some riderMain) 1 0).amount := by
  refine ⟨?_, ?_, ?_⟩ <;>
    norm_num [rev3CashOut, rev3RiderWide, rev3Eligible, rev3EligPred, rev3TotalAvailable,
      rev3Loop, rev3SetPaid, updateParcel, mkRec, isTerminal, c2St, c2ParcelZero,
      c2ParcelBig, statusDelivered, statusCenter, riderMain, List.filter]

/-- Delivered inter-region parcel, commission 600, stored earning 600,
500 already paid, so the outstanding balance is 100. -/
def c3Parcel : Parcel :=
  { pid := 1, cost := 3000, sender_region := regionA, receiver_region := regionB,
    delivery_status := statusDelivered, assigned_rider := some riderMain,
    assigned_at := some 1, earning := some 600, paid_amount := some 500,
    earning_paid := false }

def c3St : ServerState := { parcels := [c3Parcel], cashouts := [] }

/-- C3 counterexample: the rider's only eligible parcel has outstanding
balance `earning - paid_amount = 100`, so a request of 200 exceeds
total_available and the claim demands an `InsufficientEarnings` failure
with no state change; revision 3 compares against the stored earning sum
(600), accepts the request, pays 200 and mutates the parcel. -/
theorem c3_counterexample :
    ((rev3Eligible c3St.parcels riderMain).map availableOf).sum < 200 ∧
    (rev3CashOut c3St none (some riderMain) (some 200)).fst = .ok 200 ∧
    (rev3CashOut c3St none (some riderMain) (some 200)).snd.parcels =
      [{ c3Parcel with earning_paid := true }] := by
  refine ⟨?_, ?_, ?_⟩ <;>
    norm_num [rev3CashOut, rev3RiderWide, rev3Eligible, rev3EligPred, rev3TotalAvailable,
      rev3Loop, rev3SetPaid, updateParcel, mkRec, isTerminal, availableOf, commission,
      c3St, c3Parcel, statusDelivered, statusCenter, regionA_ne_regionB, riderMain,
      List.filter]

/-- Delivered intra-region parcel: the commission formula gives
`1000 * 0.10 = 100`, but the stored earning field says 500. -/
def c4Parcel : Parcel :=
  { pid := 1, cost := 1000, sender_region := regionA, receiver_region := regionA,
    delivery_status := statusDelivered, assigned_rider := some riderMain,
    assigned_at := some 1, earning := some 500, paid_amount := none,
    earning_paid := false }

def c4St : ServerState := { parcels := [c4Parcel], cashouts := [] }

/-- C4 counterexample: the commission recomputed from `cost` and the
regions is 100, yet revision 3 accepts and pays a rider-wide request of
300 against this parcel, because it reads the stale stored `earning`
field (500) instead of recomputing — the claim that the commission is
recomputed at every use fails on revision 3. -/
theorem c4_counterexample :
    commission c4Parcel = 100 ∧
    commission c4Parcel - c4Parcel.paid_amount.getD 0 < 300 ∧
    (rev3CashOut c4St none (some riderMain) (some 300)).fst = .ok 300 := by
  refine ⟨?_, ?_, ?_⟩ <;>
    norm_num [rev3CashOut, rev3RiderWide, rev3Eligible, rev3EligPred, rev3TotalAvailable,
      rev3Loop, rev3SetPaid, updateParcel, mkRec, isTerminal, commission,
      c4St, c4Parcel, statusDelivered, statusCenter, regionA, riderMain, List.filter]

/-- Delivered intra-region parcel, fully settled: earning 100 equals
paid_amount 100 and `earning_paid` is set. -/
def c5Parcel : Parcel :=
  { pid := 1, cost := 1000, sender_region := regionA, receiver_region := regionA,
    delivery_status := statusDelivered, assigned_rider := some riderMain,
    assigned_at := some 1, earning := some 100, paid_amount := some 100,
    earning_paid := true }

def c5St : ServerState := { parcels := [c5Parcel], cashouts := [] }

/-- C5 counterexample: the rider's claimed eligible set (assigned,
terminal, NOT `earning_paid` — which is what revision 3's query computes)
is empty, so the claim demands `NoEarningsAvailable`; revision 2, whose
query omits the `earning_paid` condition, still selects the settled
parcel and instead fails with `InsufficientEarnings`. -/
theorem c5_counterexample :
    rev3Eligible c5St.parcels riderMain = [] ∧
    (rev2CashOut c5St none (some riderMain) (some 200)).fst = .err .exceedsAvailable := by
  constructor
  · norm_num [rev3Eligible, rev3EligPred, c5St, c5Parcel, List.filter]
  · norm_num [rev2CashOut, rev2RiderWide, rev2Eligible, rev2EligPred, rev2TotalAvailable,
      availableOf, commission, isTerminal, c5St, c5Parcel, statusDelivered, statusCenter,
      regionA, riderMain, List.filter]

/-- Delivered intra-region parcel, commission 250, stored earning 250,
nothing paid: outstanding balance 250. -/
def c6Parcel : Parcel :=
  { pid := 1, cost := 2500, sender_region := regionA, receiver_region := regionA,
    delivery_status := statusDelivered, assigned_rider := some riderMain,
    assigned_at := some 1, earning := some 250, paid_amount := none,
    earning_paid := false }

def c6St : ServerState := { parcels := [c6Parcel], cashouts := [] }

/-- C6 counterexample: a named-parcel request of 300 exceeds the parcel's
outstanding balance of 250, so the claim demands an
`InsufficientEarnings` failure with no state change; revision 3 instead
silently caps the payment at 250, reports success, marks the parcel
settled and writes a ledger entry. -/
theorem c6_counterexample :
    c6Parcel.earning.getD 0 - c6Parcel.paid_amount.getD 0 < 300 ∧
    (rev3CashOut c6St (some 1) none (some 300)).fst = .ok 250 ∧
    (rev3CashOut c6St (some 1) none (some 300)).snd.cashouts =
      [mkRec (some riderMain) 1 250] := by
  refine ⟨?_, ?_, ?_⟩ <;>
    norm_num [rev3CashOut, rev3Single, findParcel, rev3SetPaid, updateParcel, mkRec,
      c6St, c6Parcel, List.find?, riderMain]

/-- Delivered intra-region parcel, commission 300 (= stored earning),
nothing paid. -/
def c7Parcel : Parcel :=
  { pid := 1, cost := 3000, sender_region := regionA, receiver_region := regionA,
    delivery_status := statusDelivered, assigned_rider := some riderMain,
    assigned_at := some 1, earning := some 300, paid_amount := none,
    earning_paid := false }

def c7St : ServerState := { parcels := [c7Parcel], cashouts := [] }

/-- C7 counterexample: a successful revision 3 rider-wide settlement of
200 leaves the rider's `total_available` (sum of `earning - paid_amount`
over unsettled assigned delivered parcels) unchanged at 300 instead of
decreasing it by 200, because revision 3 never increments `paid_amount`. -/
theorem c7_counterexample :
    (rev3CashOut c7St none (some riderMain) (some 200)).fst = .ok 200 ∧
    specTotalAvailable c7St.parcels riderMain = 300 ∧
    specTotalAvailable
      (rev3CashOut c7St none (some riderMain) (some 200)).snd.parcels riderMain = 300 := by
  refine ⟨?_, ?_, ?_⟩ <;>
    norm_num [rev3CashOut, rev3RiderWide, rev3Eligible, rev3EligPred, rev3TotalAvailable,
      rev3Loop, rev3SetPaid, updateParcel, mkRec, isTerminal, specTotalAvailable,
      specAvailTerm, rev2EligPred, availableOf, commission, c7St, c7Parcel,
      statusDelivered, statusCenter, regionA, riderMain, List.filter]

/-- First parcel in store order, assigned LATER (time 10), outstanding
300. -/
def c9ParcelNewer : Parcel :=
  { pid := 1, cost := 3000, sender_region := regionA, receiver_region := regionA,
    delivery_status := statusDelivered, assigned_rider := some riderMain,
    assigned_at := some 10, earning := none, paid_amount := none,
    earning_paid := false }

/-- Second parcel in store order, assigned EARLIER (time 5), outstanding
400. -/
def c9ParcelOlder : Parcel :=
  { pid := 2, cost := 4000, sender_region := regionB, receiver_region := regionB,
    delivery_status := statusDelivered, assigned_rider := some riderMain,
    assigned_at := some 5, earning := none, paid_amount := none,
    earning_paid := false }

def c9St : ServerState := { parcels := [c9ParcelNewer, c9ParcelOlder], cashouts := [] }

/-- C9 counterexample: revision 2 pays the parcels in the order the
unsorted query returns them, not oldest-assignment-first: for a request
of 500 the parcel assigned at time 10 is paid (and exhausted) first, and
the parcel assigned at time 5 — the older outstanding commission — is
paid second and only partially, contradicting the claimed ordering. -/
theorem c9_counterexample :
    c9ParcelNewer.assigned_at = some 10 ∧
    c9ParcelOlder.assigned_at = some 5 ∧
    (rev2CashOut c9St none (some riderMain) (some 500)).snd.cashouts =
      [mkRec (some riderMain) 1 300, mkRec (some riderMain) 2 200] ∧
    (mkRec (some riderMain) 2 200).amount < availableOf c9ParcelOlder := by
  refine ⟨rfl, rfl, ?_, ?_⟩ <;>
    norm_num [rev2CashOut, rev2RiderWide, rev2Eligible, rev2EligPred, rev2TotalAvailable,
      rev2Loop, rev2Pay, updateParcel, mkRec, isTerminal, availableOf, commission,
      c9St, c9ParcelNewer, c9ParcelOlder, statusDelivered, statusCenter, regionA, regionB,
      riderMain, List.filter, min_def]

/-- Delivered parcel with zero stored earning and the settled flag still
unset: its outstanding balance is 0, i.e. it is fully settled in the
claim's sense. -/
def c10Parcel : Parcel :=
  { pid := 1, cost := 0, sender_region := regionA, receiver_region := regionA,
    delivery_status := statusDelivered, assigned_rider := some riderMain,
    assigned_at := some 1, earning := some 0, paid_amount := none,
    earning_paid := false }

def c10St : ServerState := { parcels := [c10Parcel], cashouts := [] }

/-- C10 counterexample: the named parcel's outstanding balance
`earning - paid_amount` is 0, so the claim demands an already-cashed-out
rejection with no writes; revision 3, which only checks the
`earning_paid` flag, instead reports success with a payment of 0, flips
the flag and appends a zero-amount ledger entry. -/
theorem c10_counterexample :
    c10Parcel.earning.getD 0 - c10Parcel.paid_amount.getD 0 ≤ 0 ∧
    (rev3CashOut c10St (some 1) none (some 200)).fst = .ok 0 ∧
    (rev3CashOut c10St (some 1) none (some 200)).snd.parcels =
      [{ c10Parcel with earning_paid := true }] ∧
    (rev3CashOut c10St (some 1) none (some 200)).snd.cashouts =
      [mkRec (some riderMain) 1 0] := by
  refine ⟨?_, ?_, ?_, ?_⟩ <;>
    norm_num [rev3CashOut, rev3Single, findParcel, rev3SetPaid, updateParcel, mkRec,
      c10St, c10Parcel, List.find?, riderMain]

/-! ## Witnesses -/

/-- Delivered intra-region parcel, commission 200, nothing paid. -/
def w1Parcel : Parcel :=
  { pid := 1, cost := 2000, sender_region := regionA, receiver_region := regionA,
    delivery_status := statusDelivered, assigned_rider := some riderMain,
    assigned_at := some 1, earning := none, paid_amount := some 0,
    earning_paid := false }

def w1St : ServerState := { parcels := [w1Parcel], cashouts := [] }

/-- The parcel after revision 2 cashes out its full commission of 200. -/
def w1Post : Parcel :=
  { pid := 1, cost := 2000, sender_region := regionA, receiver_region := regionA,
    delivery_status := statusDelivered, assigned_rider := some riderMain,
    assigned_at := some 1, earning := some 200, paid_amount := some 200,
    earning_paid := true }

/-- Witness for C1: the updated parcel of a concrete revision 2
single-parcel cash-out satisfies the invariant. -/
theorem c1_amended_witness : w1Post ∈ w1St.parcels ∨ earningsInvariant w1Post := by
  apply c1_amended.1 w1St (some 1) (some riderMain) (some 200)
  · norm_num [w1St, w1Parcel]
  · intro p hp
    rw [show w1St.parcels = [w1Parcel] from rfl, List.mem_singleton] at hp
    subst hp
    norm_num [w1Parcel]
  · norm_num [rev2CashOut, rev2Single, findParcel, updateParcel, rev2Pay, mkRec,
      commission, availableOf, w1St, w1Parcel, w1Post, List.find?]

/-- Delivered intra-region parcel, commission 300, nothing paid. -/
def w2Parcel : Parcel :=
  { pid := 1, cost := 3000, sender_region := regionA, receiver_region := regionA,
    delivery_status := statusDelivered, assigned_rider := some riderMain,
    assigned_at := some 1, earning := none, paid_amount := none,
    earning_paid := false }

def w2St : ServerState := { parcels := [w2Parcel], cashouts := [] }

theorem w2_eligible : rev2Eligible w2St.parcels riderMain = [w2Parcel] := by
  norm_num [rev2Eligible, rev2EligPred, isTerminal, w2St, w2Parcel,
    statusDelivered, statusCenter, List.filter]

/-- Witness for C2: a concrete successful revision 2 rider-wide cash-out
of 200 against one parcel with outstanding 300 returns `ok 200`. -/
theorem c2_amended_witness :
    (rev2CashOut w2St none (some riderMain) (some 200)).fst = .ok 200 :=
  (c2_amended w2St riderMain 200 (by norm_num)
    (by rw [w2_eligible]; exact List.cons_ne_nil w2Parcel [])
    (by rw [w2_eligible]
        norm_num [rev2TotalAvailable, availableOf, commission, w2Parcel])).1

/-- Delivered intra-region parcel with commission 300 and stored earning
300, nothing paid. -/
def w3Parcel : Parcel :=
  { pid := 1, cost := 3000, sender_region := regionA, receiver_region := regionA,
    delivery_status := statusDelivered, assigned_rider := some riderMain,
    assigned_at := some 1, earning := some 300, paid_amount := none,
    earning_paid := false }

def w3St : ServerState := { parcels := [w3Parcel], cashouts := [] }

theorem w3_eligible2 : rev2Eligible w3St.parcels riderMain = [w3Parcel] := by
  norm_num [rev2Eligible, rev2EligPred, isTerminal, w3St, w3Parcel,
    statusDelivered, statusCenter, List.filter]

theorem w3_eligible3 : rev3Eligible w3St.parcels riderMain = [w3Parcel] := by
  norm_num [rev3Eligible, rev3EligPred, isTerminal, w3St, w3Parcel,
    statusDelivered, statusCenter, List.filter]

/-- Witness for C3: a request of 500 against a total of 300 fails with
`InsufficientEarnings` and no state change, in both revisions. -/
theorem c3_amended_witness :
    rev2CashOut w3St none (some riderMain) (some 500) = (.err .exceedsAvailable, w3St) ∧
    rev3CashOut w3St none (some riderMain) (some 500) = (.err .exceedsAvailable, w3St) := by
  constructor
  · apply c3_amended.1 w3St riderMain 500 (by norm_num)
    · rw [w3_eligible2]
      exact List.cons_ne_nil w3Parcel []
    · rw [w3_eligible2]
      norm_num [rev2TotalAvailable, availableOf, commission, w3Parcel]
  · apply c3_amended.2 w3St riderMain 500 (by norm_num)
    · rw [w3_eligible3]
      exact List.cons_ne_nil w3Parcel []
    · rw [w3_eligible3]
      norm_num [rev3TotalAvailable, w3Parcel]

/-- Intra-region parcel for the commission formula. -/
def w4Same : Parcel :=
  { pid := 1, cost := 1000, sender_region := regionA, receiver_region := regionA,
    delivery_status := statusDelivered, assigned_rider := some riderMain,
    assigned_at := some 1, earning := none, paid_amount := none, earning_paid := false }

/-- Inter-region parcel for the commission formula. -/
def w4Diff : Parcel :=
  { pid := 2, cost := 1000, sender_region := regionA, receiver_region := regionB,
    delivery_status := statusDelivered, assigned_rider := some riderMain,
    assigned_at := some 1, earning := none, paid_amount := none, earning_paid := false }

/-- Zero-cost parcel for the commission formula. -/
def w4Zero : Parcel :=
  { pid := 3, cost := 0, sender_region := regionA, receiver_region := regionB,
    delivery_status := statusDelivered, assigned_rider := some riderMain,
    assigned_at := some 1, earning := none, paid_amount := none, earning_paid := false }

/-- Witness for C4: the formula conjuncts evaluated on concrete parcels. -/
theorem c4_amended_witness :
    commission w4Same = w4Same.cost * (1 / 10) ∧
    commission w4Diff = w4Diff.cost * (1 / 5) ∧
    commission w4Zero = 0 :=
  ⟨c4_amended.1 w4Same rfl,
   c4_amended.2.1 w4Diff regionA_ne_regionB,
   c4_amended.2.2.1 w4Zero rfl⟩

/-- Witness for C5: on an empty store both revisions answer a rider-wide
request of 200 with `NoEarningsAvailable`. -/
theorem c5_amended_witness :
    rev3CashOut { parcels := [], cashouts := [] } none (some riderMain) (some 200) =
      (.err .noEarnings, { parcels := [], cashouts := [] }) ∧
    rev2CashOut { parcels := [], cashouts := [] } none (some riderMain) (some 200) =
      (.err .noEarnings, { parcels := [], cashouts := [] }) :=
  ⟨c5_amended.2.1 { parcels := [], cashouts := [] } riderMain 200 (by norm_num) rfl,
   c5_amended.2.2.2 { parcels := [], cashouts := [] } riderMain 200 (by norm_num) rfl⟩

/-- Delivered intra-region parcel, commission 250 (= stored earning),
nothing paid. -/
def w6Parcel : Parcel :=
  { pid := 1, cost := 2500, sender_region := regionA, receiver_region := regionA,
    delivery_status := statusDelivered, assigned_rider := some riderMain,
    assigned_at := some 1, earning := some 250, paid_amount := none,
    earning_paid := false }

def w6St : ServerState := { parcels := [w6Parcel], cashouts := [] }

theorem w6_find : findParcel w6St.parcels 1 = some w6Parcel := by
  norm_num [findParcel, w6St, w6Parcel, List.find?]

/-- Witness for C6: a named-parcel request of 300 against outstanding 250
fails hard in revision 2 and is capped to 250 in revision 3. -/
theorem c6_amended_witness :
    rev2CashOut w6St (some 1) none (some 300) = (.err .exceedsRemaining, w6St) ∧
    (rev3CashOut w6St (some 1) none (some 300)).fst =
      .ok (min 300 (w6Parcel.earning.getD 0)) := by
  constructor
  · apply c6_amended.1 w6St none 1 300 w6Parcel (by norm_num) w6_find
    · norm_num [availableOf, commission, w6Parcel]
    · norm_num [availableOf, commission, w6Parcel]
  · exact c6_amended.2 w6St 1 300 w6Parcel (by norm_num) w6_find rfl

/-- Delivered intra-region parcel, commission 300, nothing paid. -/
def w7Parcel : Parcel :=
  { pid := 1, cost := 3000, sender_region := regionA, receiver_region := regionA,
    delivery_status := statusDelivered, assigned_rider := some riderMain,
    assigned_at := some 1, earning := none, paid_amount := none,
    earning_paid := false }

def w7St : ServerState := { parcels := [w7Parcel], cashouts := [] }

theorem w7_eligible : rev2Eligible w7St.parcels riderMain = [w7Parcel] := by
  norm_num [rev2Eligible, rev2EligPred, isTerminal, w7St, w7Parcel,
    statusDelivered, statusCenter, List.filter]

/-- Witness for C7: a concrete successful revision 2 settlement of 200
against a total of 300 decreases `total_available` by exactly 200. -/
theorem c7_amended_witness :
    (rev2CashOut w7St none (some riderMain) (some 200)).fst = .ok 200 ∧
    specTotalAvailable
        (rev2CashOut w7St none (some riderMain) (some 200)).snd.parcels riderMain =
      specTotalAvailable w7St.parcels riderMain - 200 := by
  apply c7_amended w7St riderMain 200
  · norm_num [w7St, w7Parcel]
  · norm_num
  · rw [w7_eligible]
    exact List.cons_ne_nil w7Parcel []
  · rw [w7_eligible]
    norm_num [rev2TotalAvailable, availableOf, commission, w7Parcel]

/-- Witness for C9: the plan decomposition instantiated on a concrete
store and request. -/
theorem c9_amended_witness :
    ∃ plan,
      (rev2CashOut w2St none (some riderMain) (some 100)).snd.cashouts =
        w2St.cashouts ++ plan ∧
      List.Sublist (plan.map CashOutRecord.parcel_id)
        ((rev2Eligible w2St.parcels riderMain).map Parcel.pid) ∧
      ∀ rec ∈ plan.dropLast, ∃ p, p ∈ rev2Eligible w2St.parcels riderMain ∧
        rec.parcel_id = p.pid ∧ rec.amount = availableOf p :=
  c9_amended w2St riderMain (some 100)

/-- Delivered intra-region parcel, fully settled: commission 100 equals
`paid_amount`. -/
def w10Parcel : Parcel :=
  { pid := 1, cost := 1000, sender_region := regionA, receiver_region := regionA,
    delivery_status := statusDelivered, assigned_rider := some riderMain,
    assigned_at := some 1, earning := some 100, paid_amount := some 100,
    earning_paid := true }

def w10St : ServerState := { parcels := [w10Parcel], cashouts := [] }

theorem w10_find : findParcel w10St.parcels 1 = some w10Parcel := by
  norm_num [findParcel, w10St, w10Parcel, List.find?]

/-- Witness for C10: a named-parcel request against a settled parcel is
rejected as already cashed out by both revisions. -/
theorem c10_amended_witness :
    rev2CashOut w10St (some 1) none (some 200) = (.err .alreadyCashedOut, w10St) ∧
    rev3CashOut w10St (some 1) none (some 200) = (.err .alreadyCashedOut, w10St) := by
  constructor
  · apply c10_amended.1 w10St none 1 200 w10Parcel (by norm_num) w10_find
    norm_num [availableOf, commission, w10Parcel]
  · exact c10_amended.2 w10St 1 200 w10Parcel (by norm_num) w10_find rfl
